import Mathlib

/-!
Shallow embedding of `TensorTrain/TTtensors.py` (class `BlockTTtensor`).

Modelling conventions:
* A numpy ndarray is a shape (list of axis lengths) plus its flat C-order
  buffer.  The code performs no arithmetic on array entries — only
  `np.reshape` (which keeps the flat buffer) and `.transpose()` (which, at
  every call site in this code, acts on a 2-D array) — so entries are
  modelled as integers standing in for the numeric contents.
* The pyemma readers (basis sources, interfaces) are opaque streamed
  objects.  The two external primitives `Ut.ApplyLinearTransform` and
  `Ut.DoubleProducts` are deterministic functions of their arguments and
  cache path; they are modelled freely, as constructors of an inductive
  type, so that "which primitive was applied to which arguments with which
  cache path" is directly observable.
* The class instance is a record of its attributes; each method is a
  function of that record.
-/

/-- A numpy ndarray: its shape tuple and its flat C-order data buffer. -/
structure NDArray where
  shape : List Nat
  data : List Int
deriving Repr, DecidableEq

/-- Default array used with `List.getD` (out-of-range accesses do not occur
in the situations the theorems quantify over). -/
def dfltA : NDArray := { shape := [], data := [] }

/-- Model of `np.reshape(A, s)`: the flat C-order buffer is unchanged, only
the shape changes.  (At every call site in this code the new shape has the
same total size, so numpy's size check never fires.) -/
def np_reshape (A : NDArray) (s : List Nat) : NDArray :=
  { shape := s, data := A.data }

/-- Model of `A.transpose()` as used in this code: every call site
transposes a 2-D array (a right unfolding), where numpy reverses the two
axes and permutes the flat C-order buffer accordingly.  Other ranks are
unreachable from the call sites; for them the shape is reversed with the
buffer kept. -/
def np_transpose (A : NDArray) : NDArray :=
  match A.shape with
  | [a, b] =>
      { shape := [b, a],
        data := ((List.range b).map (fun i =>
          (List.range a).map (fun j => A.data.getD (j * b + i) 0))).flatten }
  | s => { shape := s.reverse, data := A.data }

/-- Opaque streamed reader objects (pyemma readers).  `ext i` is an external
reader supplied by the caller (a basis source).  `linTransform src mat p`
is the result of `Ut.ApplyLinearTransform(src, mat, p)` and
`doubleProduct a b p mat` the result of `Ut.DoubleProducts(a, b, p, mat)`:
the external primitives are deterministic in their arguments, so they are
modelled freely. -/
inductive Reader where
  | ext (i : Nat)
  | linTransform (src : Reader) (mat : NDArray) (cachePath : String)
  | doubleProduct (srcA : Reader) (srcB : Reader) (cachePath : String) (mat : NDArray)
deriving Repr, DecidableEq

/-- Default reader used with `List.getD`. -/
def dfltR : Reader := Reader.ext 0

/-- The cache path baked into a computed reader (the third positional
argument of `ApplyLinearTransform`, respectively `DoubleProducts`);
external readers have none. -/
def Reader.cachePathOf : Reader → Option String
  | Reader.ext _ => none
  | Reader.linTransform _ _ p => some p
  | Reader.doubleProduct _ _ p _ => some p

/-- The attributes of a `BlockTTtensor` instance: `U` (component tensors),
`basis` (readers), `tensordir`, `d`, `root`, `M`, `R` (bond ranks; the
source keeps them in a float-valued numpy array, their numeric values are
the naturals stored here), `interfaces`. -/
structure BlockTTtensor where
  U : List NDArray
  basis : List Reader
  tensordir : String
  d : Nat
  root : Nat
  M : Nat
  R : List Nat
  interfaces : List Reader
deriving Repr, DecidableEq

/-- `GetRankTriple(k)`: `U[k].shape[:3]` at the root, else `U[k].shape`. -/
def GetRankTriple (t : BlockTTtensor) (k : Nat) : List Nat :=
  if k = t.root then (t.U.getD k dfltA).shape.take 3
  else (t.U.getD k dfltA).shape

/-- `ComponentBasis(k)`: returns `basis[k]`. -/
def ComponentBasis (t : BlockTTtensor) (k : Nat) : Reader :=
  t.basis.getD k dfltR

/-- `ComponentTensor(k, order)`: left unfolding (`order = 1`) reshapes to
`(dims[0]*dims[1], dims[2])`, right unfolding (`order = 2`) reshapes to
`(dims[0], dims[1]*dims[2])`, both only when `k` is not the root; otherwise
the stored array is returned unchanged. -/
def ComponentTensor (t : BlockTTtensor) (k : Nat) (order : Nat) : NDArray :=
  if order = 1 ∧ ¬ k = t.root then
    let dims := GetRankTriple t k
    np_reshape (t.U.getD k dfltA) [dims.getD 0 0 * dims.getD 1 0, dims.getD 2 0]
  else if order = 2 ∧ ¬ k = t.root then
    let dims := GetRankTriple t k
    np_reshape (t.U.getD k dfltA) [dims.getD 0 0, dims.getD 1 0 * dims.getD 2 0]
  else
    t.U.getD k dfltA

/-- `SetComponentTensor(k, U)`: `self.U[k] = U` and nothing else. -/
def SetComponentTensor (t : BlockTTtensor) (k : Nat) (A : NDArray) : BlockTTtensor :=
  { t with U := t.U.set k A }

/-- `GetInterface(k)`: returns `interfaces[k]`. -/
def GetInterface (t : BlockTTtensor) (k : Nat) : Reader :=
  t.interfaces.getD k dfltR

/-- `SetInterface(k, intf)`: `self.interfaces[k] = intf`. -/
def SetInterface (t : BlockTTtensor) (k : Nat) (intf : Reader) : BlockTTtensor :=
  { t with interfaces := t.interfaces.set k intf }

/-- Result of `GetRanks`: the source returns either a single rank
(`self.R[k]`) or the whole rank vector (`self.R`). -/
inductive RankResult where
  | one (r : Nat)
  | all (rs : List Nat)
deriving Repr, DecidableEq

/-- Python/numpy indexing with a possibly negative index: a negative `k`
counts from the end (`R[-1]` is the last entry). -/
def npIndexNat (rs : List Nat) (k : Int) : Nat :=
  if 0 ≤ k then rs.getD k.toNat 0
  else rs.getD (rs.length - (-k).toNat) 0

/-- `GetRanks(k)`: the source tests `k >= 0 or k <= (self.d-2)` and returns
`self.R[k]` when the test holds, `self.R` otherwise. -/
def GetRanks (t : BlockTTtensor) (k : Int) : RankResult :=
  if k ≥ 0 ∨ k ≤ (t.d : Int) - 2 then RankResult.one (npIndexNat t.R k)
  else RankResult.all t.R

/-- `GetRanks()` with the argument left at its default `k = -1`. -/
def GetRanksDefault (t : BlockTTtensor) : RankResult :=
  GetRanks t (-1)

/-- The persistence path handed to a primitive when producing the interface
of bond `k`: the source writes `self.tensordir + "Interface%d" % k`. -/
def interfacePath (t : BlockTTtensor) (k : Nat) : String :=
  t.tensordir ++ "Interface" ++ Nat.repr k

/-- Iterations `k, k+1, ...` (for `s` further steps) of the forward loop of
`ComputeInterfaces`, carrying the previous iteration's `Yk`.  Each step
computes `Ut.DoubleProducts(Yk, Fk, path, Uk)` with `Fk = basis[k]` and
`Uk` the left unfolding of component `k`, and appends the result. -/
def leftSweepFrom (t : BlockTTtensor) : Nat → Nat → Reader → List Reader
  | _, 0, _ => []
  | k, s + 1, Yprev =>
      Reader.doubleProduct Yprev (ComponentBasis t k)
          (interfacePath t k) (ComponentTensor t k 1) ::
        leftSweepFrom t (k + 1) s
          (Reader.doubleProduct Yprev (ComponentBasis t k)
            (interfacePath t k) (ComponentTensor t k 1))

/-- The forward loop of `ComputeInterfaces` (`for k in range(self.root)`):
empty when `root = 0`; otherwise iteration `k = 0` applies
`Ut.ApplyLinearTransform(F0, U0, path 0)` and iterations `k = 1 .. root-1`
apply `Ut.DoubleProducts`. -/
def leftSweep (t : BlockTTtensor) : List Reader :=
  match t.root with
  | 0 => []
  | r + 1 =>
      Reader.linTransform (ComponentBasis t 0)
          (ComponentTensor t 0 1) (interfacePath t 0) ::
        leftSweepFrom t 1 r
          (Reader.linTransform (ComponentBasis t 0)
            (ComponentTensor t 0 1) (interfacePath t 0))

/-- Iterations of the backward loop of `ComputeInterfaces` after the first,
counting `k` downward for `s` further steps and prepending each result
(`backward_list.insert(0, Yk)` keeps the list in forward order).  Each step
computes `Ut.DoubleProducts(Fk, Yk, path k, Uk.transpose())` with
`Fk = basis[k+1]` and `Uk` the right unfolding of component `k+1`. -/
def rightSweepFrom (t : BlockTTtensor) : Nat → Nat → Reader → List Reader → List Reader
  | _, 0, _, acc => acc
  | k, s + 1, Yprev, acc =>
      rightSweepFrom t (k - 1) s
        (Reader.doubleProduct (ComponentBasis t (k + 1)) Yprev
          (interfacePath t k) (np_transpose (ComponentTensor t (k + 1) 2)))
        (Reader.doubleProduct (ComponentBasis t (k + 1)) Yprev
            (interfacePath t k) (np_transpose (ComponentTensor t (k + 1) 2)) :: acc)

/-- The backward loop of `ComputeInterfaces`
(`for k in range(self.d-2, self.root-1, -1)`): empty unless
`root ≤ d - 2`; otherwise iteration `k = d-2` applies
`Ut.ApplyLinearTransform(F, U.transpose(), path (d-2))` with
`F = basis[d-1]` and `U` the right unfolding of component `d-1`, and
iterations `k = d-3 .. root` apply `Ut.DoubleProducts`. -/
def rightSweep (t : BlockTTtensor) : List Reader :=
  if t.root + 2 ≤ t.d then
    rightSweepFrom t (t.d - 3) (t.d - 2 - t.root)
      (Reader.linTransform (ComponentBasis t (t.d - 1))
        (np_transpose (ComponentTensor t (t.d - 1) 2)) (interfacePath t (t.d - 2)))
      [Reader.linTransform (ComponentBasis t (t.d - 1))
        (np_transpose (ComponentTensor t (t.d - 1) 2)) (interfacePath t (t.d - 2))]
  else []

/-- `ComputeInterfaces()`: the forward loop's list glued to the backward
loop's list (`interface_list + backward_list`). -/
def ComputeInterfaces (t : BlockTTtensor) : List Reader :=
  leftSweep t ++ rightSweep t

/-- The exception construction can raise inside the modelled statements:
a Python `IndexError` from indexing a shape tuple out of range. -/
inductive InitError where
  | indexError
deriving Repr, DecidableEq

/-- The statement `self.M = np.shape(self.U[0])[3]` of the constructor:
fails with an `IndexError` when `U` is empty or `U[0]` has fewer than four
axes. -/
def extractM (U : List NDArray) : Except InitError Nat :=
  match U with
  | [] => Except.error InitError.indexError
  | A :: _ =>
      match A.shape.get? 3 with
      | some m => Except.ok m
      | none => Except.error InitError.indexError

/-- One pass of the rank-extraction loop over a prefix of the component
list: reads `shape[2]` of each array in order, failing with an
`IndexError` at the first array with fewer than three axes. -/
def extractRList : List NDArray → Except InitError (List Nat)
  | [] => Except.ok []
  | A :: rest =>
      match A.shape.get? 2 with
      | some r =>
          match extractRList rest with
          | Except.ok rs => Except.ok (r :: rs)
          | Except.error e => Except.error e
      | none => Except.error InitError.indexError

/-- The rank-extraction loop of the constructor
(`for k in range(self.d-1): self.R[k] = self.U[k].shape[2]`): reads the
third axis of each of the first `d-1` components.  No comparison with the
neighbouring component's axes is made. -/
def extractR (U : List NDArray) : Except InitError (List Nat) :=
  extractRList (U.take (U.length - 1))

/-- `__init__(U, basis, tensordir)`: stores the inputs, sets `d = len(U)`,
`root = 0`, `M = np.shape(U[0])[3]`, extracts `R`, and finally populates
`interfaces` by running `ComputeInterfaces` — in that statement order, so a
failure while extracting `M` happens before `R` is derived and before any
streamed computation. -/
def mkBlockTT (U : List NDArray) (bs : List Reader) (tensordir : String) :
    Except InitError BlockTTtensor :=
  match extractM U with
  | Except.error e => Except.error e
  | Except.ok m =>
      match extractR U with
      | Except.error e => Except.error e
      | Except.ok rs =>
          Except.ok
            { U := U, basis := bs, tensordir := tensordir, d := U.length,
              root := 0, M := m, R := rs,
              interfaces := ComputeInterfaces
                { U := U, basis := bs, tensordir := tensordir, d := U.length,
                  root := 0, M := m, R := rs, interfaces := [] } }

/-- Calling the constructor without the `tensordir` argument: its Python
default is the current directory, the string `"./"`. -/
def mkBlockTTdefault (U : List NDArray) (bs : List Reader) :
    Except InitError BlockTTtensor :=
  mkBlockTT U bs "./"

/-- The interface the left sweep produces at bond `k`, written by recursion
on `k`: a linear transform at `k = 0`, then one double product per step. -/
def leftInterface (t : BlockTTtensor) : Nat → Reader
  | 0 => Reader.linTransform (ComponentBasis t 0) (ComponentTensor t 0 1)
      (interfacePath t 0)
  | k + 1 => Reader.doubleProduct (leftInterface t k) (ComponentBasis t (k + 1))
      (interfacePath t (k + 1)) (ComponentTensor t (k + 1) 1)

/-- The interface the right sweep produces `j` iterations after its first
one, i.e. at bond `t.d - 2 - j`: a linear transform at `j = 0`, then one
double product per step moving leftward. -/
def rightInterface (t : BlockTTtensor) : Nat → Reader
  | 0 => Reader.linTransform (ComponentBasis t (t.d - 1))
      (np_transpose (ComponentTensor t (t.d - 1) 2)) (interfacePath t (t.d - 2))
  | j + 1 => Reader.doubleProduct (ComponentBasis t (t.d - 2 - j))
      (rightInterface t j) (interfacePath t (t.d - 3 - j))
      (np_transpose (ComponentTensor t (t.d - 2 - j) 2))

lemma leftSweepFrom_eq (t : BlockTTtensor) :
    ∀ s j, leftSweepFrom t (j + 1) s (leftInterface t j) =
      (List.range s).map (fun i => leftInterface t (j + 1 + i)) := by
  intro s
  induction s with
  | zero => intro j; rfl
  | succ s ih =>
      intro j
      have h1 : leftSweepFrom t (j + 1) (s + 1) (leftInterface t j) =
          leftInterface t (j + 1) ::
            leftSweepFrom t (j + 1 + 1) s (leftInterface t (j + 1)) := rfl
      rw [h1, ih (j + 1), List.range_succ_eq_map, List.map_cons, List.map_map]
      congr 1
      apply List.map_congr_left
      intro i _
      exact congrArg (leftInterface t) (by omega)

lemma leftSweep_eq (t : BlockTTtensor) :
    leftSweep t = (List.range t.root).map (leftInterface t) := by
  cases hr : t.root with
  | zero => simp only [leftSweep, hr]; rfl
  | succ r =>
      simp only [leftSweep, hr]
      rw [show leftSweepFrom t 1 r
            (Reader.linTransform (ComponentBasis t 0) (ComponentTensor t 0 1)
              (interfacePath t 0)) =
          (List.range r).map (fun i => leftInterface t (0 + 1 + i)) from
        leftSweepFrom_eq t r 0]
      rw [show Reader.linTransform (ComponentBasis t 0) (ComponentTensor t 0 1)
            (interfacePath t 0) = leftInterface t 0 from rfl]
      rw [List.range_succ_eq_map, List.map_cons, List.map_map]
      congr 1
      apply List.map_congr_left
      intro i _
      exact congrArg (leftInterface t) (by omega)

lemma leftSweep_length (t : BlockTTtensor) : (leftSweep t).length = t.root := by
  rw [leftSweep_eq]; simp

lemma ci_get_left (t : BlockTTtensor) (k : Nat) (hk : k < t.root) :
    (ComputeInterfaces t).getD k dfltR = leftInterface t k := by
  have hl : k < (leftSweep t).length := by rw [leftSweep_length]; exact hk
  rw [List.getD_eq_getElem?_getD,
    show ComputeInterfaces t = leftSweep t ++ rightSweep t from rfl,
    List.getElem?_append_left hl, leftSweep_eq, List.getElem?_map,
    List.getElem?_range hk]
  rfl

lemma rightSweepFrom_eq (t : BlockTTtensor) :
    ∀ s j acc, 3 + j + s ≤ t.d + 1 →
      rightSweepFrom t (t.d - 3 - j) s (rightInterface t j) acc =
        ((List.range s).map (fun p => rightInterface t (j + s - p))) ++ acc := by
  intro s
  induction s with
  | zero => intro j acc _; rfl
  | succ s ih =>
      intro j acc h
      have hk1 : t.d - 3 - j + 1 = t.d - 2 - j := by omega
      have hstep : rightSweepFrom t (t.d - 3 - j) (s + 1) (rightInterface t j) acc =
          rightSweepFrom t (t.d - 3 - (j + 1)) s (rightInterface t (j + 1))
            (rightInterface t (j + 1) :: acc) := by
        show rightSweepFrom t (t.d - 3 - (j + 1)) s
            (Reader.doubleProduct (ComponentBasis t (t.d - 3 - j + 1)) (rightInterface t j)
              (interfacePath t (t.d - 3 - j))
              (np_transpose (ComponentTensor t (t.d - 3 - j + 1) 2)))
            (Reader.doubleProduct (ComponentBasis t (t.d - 3 - j + 1)) (rightInterface t j)
              (interfacePath t (t.d - 3 - j))
              (np_transpose (ComponentTensor t (t.d - 3 - j + 1) 2)) :: acc) =
          rightSweepFrom t (t.d - 3 - (j + 1)) s (rightInterface t (j + 1))
            (rightInterface t (j + 1) :: acc)
        rw [hk1]
        rfl
      rw [hstep, ih (j + 1) (rightInterface t (j + 1) :: acc) (by omega)]
      rw [List.range_succ, List.map_append, List.append_assoc]
      congr 1
      · apply List.map_congr_left
        intro p _
        exact congrArg (rightInterface t) (by omega)
      · show rightInterface t (j + 1) :: acc =
          rightInterface t (j + (s + 1) - s) :: acc
        rw [show j + (s + 1) - s = j + 1 from by omega]

lemma rightSweep_eq (t : BlockTTtensor) (h : t.root + 2 ≤ t.d) :
    rightSweep t =
      (List.range (t.d - 1 - t.root)).map
        (fun p => rightInterface t (t.d - 2 - t.root - p)) := by
  have h0 := rightSweepFrom_eq t (t.d - 2 - t.root) 0 [rightInterface t 0] (by omega)
  unfold rightSweep
  rw [if_pos h]
  rw [show rightSweepFrom t (t.d - 3) (t.d - 2 - t.root)
        (Reader.linTransform (ComponentBasis t (t.d - 1))
          (np_transpose (ComponentTensor t (t.d - 1) 2)) (interfacePath t (t.d - 2)))
        [Reader.linTransform (ComponentBasis t (t.d - 1))
          (np_transpose (ComponentTensor t (t.d - 1) 2)) (interfacePath t (t.d - 2))] =
      (List.range (t.d - 2 - t.root)).map
        (fun p => rightInterface t (0 + (t.d - 2 - t.root) - p)) ++ [rightInterface t 0] from h0]
  rw [show t.d - 1 - t.root = (t.d - 2 - t.root) + 1 from by omega, List.range_succ,
    List.map_append]
  congr 1
  · apply List.map_congr_left
    intro p _
    exact congrArg (rightInterface t) (by omega)
  · show [rightInterface t 0] =
      [rightInterface t (t.d - 2 - t.root - (t.d - 2 - t.root))]
    rw [show t.d - 2 - t.root - (t.d - 2 - t.root) = 0 from by omega]

lemma rightSweep_length (t : BlockTTtensor) :
    (rightSweep t).length = t.d - 1 - t.root := by
  by_cases h : t.root + 2 ≤ t.d
  · rw [rightSweep_eq t h]; simp
  · unfold rightSweep
    rw [if_neg h]
    simp only [List.length_nil]
    omega

lemma ci_get_right (t : BlockTTtensor) (k : Nat) (h1 : t.root ≤ k) (h2 : k ≤ t.d - 2)
    (h3 : t.root + 2 ≤ t.d) :
    (ComputeInterfaces t).getD k dfltR = rightInterface t (t.d - 2 - k) := by
  have hlen : (leftSweep t).length ≤ k := by rw [leftSweep_length]; exact h1
  rw [List.getD_eq_getElem?_getD,
    show ComputeInterfaces t = leftSweep t ++ rightSweep t from rfl,
    List.getElem?_append_right hlen, leftSweep_length, rightSweep_eq t h3,
    List.getElem?_map, List.getElem?_range (show k - t.root < t.d - 1 - t.root by omega)]
  simp only [Option.map_some', Option.getD_some]
  exact congrArg (rightInterface t) (by omega)

lemma GetRankTriple_congr {t t2 : BlockTTtensor} (hU : t2.U = t.U)
    (hroot : t2.root = t.root) (k : Nat) :
    GetRankTriple t2 k = GetRankTriple t k := by
  simp only [GetRankTriple, hU, hroot]

lemma ComponentTensor_congr {t t2 : BlockTTtensor} (hU : t2.U = t.U)
    (hroot : t2.root = t.root) (k order : Nat) :
    ComponentTensor t2 k order = ComponentTensor t k order := by
  simp only [ComponentTensor, GetRankTriple, hU, hroot]

lemma ComponentBasis_congr {t t2 : BlockTTtensor} (hb : t2.basis = t.basis) (k : Nat) :
    ComponentBasis t2 k = ComponentBasis t k := by
  simp only [ComponentBasis, hb]

lemma interfacePath_congr {t t2 : BlockTTtensor} (hdir : t2.tensordir = t.tensordir)
    (k : Nat) : interfacePath t2 k = interfacePath t k := by
  simp only [interfacePath, hdir]

lemma leftSweepFrom_congr {t t2 : BlockTTtensor} (hU : t2.U = t.U)
    (hb : t2.basis = t.basis) (hdir : t2.tensordir = t.tensordir)
    (hroot : t2.root = t.root) :
    ∀ s k Y, leftSweepFrom t2 k s Y = leftSweepFrom t k s Y := by
  intro s
  induction s with
  | zero => intro k Y; rfl
  | succ s ih =>
      intro k Y
      simp only [leftSweepFrom]
      rw [ComponentBasis_congr hb, ComponentTensor_congr hU hroot,
        interfacePath_congr hdir, ih]

lemma leftSweep_congr {t t2 : BlockTTtensor} (hU : t2.U = t.U)
    (hb : t2.basis = t.basis) (hdir : t2.tensordir = t.tensordir)
    (hroot : t2.root = t.root) :
    leftSweep t2 = leftSweep t := by
  cases hr : t.root with
  | zero => simp only [leftSweep, hroot, hr]
  | succ r =>
      simp only [leftSweep, hroot, hr]
      rw [ComponentBasis_congr hb, ComponentTensor_congr hU hroot,
        interfacePath_congr hdir, leftSweepFrom_congr hU hb hdir hroot]

lemma rightSweepFrom_congr {t t2 : BlockTTtensor} (hU : t2.U = t.U)
    (hb : t2.basis = t.basis) (hdir : t2.tensordir = t.tensordir)
    (hroot : t2.root = t.root) :
    ∀ s k Y acc, rightSweepFrom t2 k s Y acc = rightSweepFrom t k s Y acc := by
  intro s
  induction s with
  | zero => intro k Y acc; rfl
  | succ s ih =>
      intro k Y acc
      simp only [rightSweepFrom]
      rw [ComponentBasis_congr hb, ComponentTensor_congr hU hroot,
        interfacePath_congr hdir, ih]

lemma rightSweep_congr {t t2 : BlockTTtensor} (hU : t2.U = t.U)
    (hb : t2.basis = t.basis) (hdir : t2.tensordir = t.tensordir)
    (hroot : t2.root = t.root) (hd : t2.d = t.d) :
    rightSweep t2 = rightSweep t := by
  unfold rightSweep
  rw [hroot, hd]
  by_cases h : t.root + 2 ≤ t.d
  · rw [if_pos h, if_pos h]
    rw [ComponentBasis_congr hb, ComponentTensor_congr hU hroot,
      interfacePath_congr hdir, rightSweepFrom_congr hU hb hdir hroot]
  · rw [if_neg h, if_neg h]

/-- Coordinate-0 component of the `root = 2` example: 3-index, shape
`(1, 1, 2)` (leftRank 1, basisSize 1, rightRank 2). -/
def uA0 : NDArray := { shape := [1, 1, 2], data := [1, 2] }

/-- Coordinate-1 component of the `root = 2` example: shape `(2, 1, 3)`. -/
def uA1 : NDArray := { shape := [2, 1, 3], data := [1, 2, 3, 4, 5, 6] }

/-- Coordinate-2 (root) component of the `root = 2` example: 4-index,
shape `(3, 1, 1, 4)` with `M = 4` stacked functions. -/
def uA2 : NDArray :=
  { shape := [3, 1, 1, 4], data := [1, 2, 3, 4, 5, 6, 7, 8, 9, 10, 11, 12] }

/-- Example tensor state with `d = 3` and the root at coordinate 2 (the
left sweep then covers bonds 0 and 1 and the right sweep is empty). -/
def tA : BlockTTtensor :=
  { U := [uA0, uA1, uA2],
    basis := [Reader.ext 0, Reader.ext 1, Reader.ext 2],
    tensordir := "./", d := 3, root := 2, M := 4, R := [2, 3], interfaces := [] }

/-- Coordinate-0 (root) component of the `root = 0`, `d = 4` example:
4-index, shape `(1, 1, 2, 2)` with `M = 2`. -/
def uB0 : NDArray := { shape := [1, 1, 2, 2], data := [1, 2, 3, 4] }

/-- Coordinate-1 component of the `d = 4` example: shape `(2, 1, 3)`. -/
def uB1 : NDArray := { shape := [2, 1, 3], data := [1, 2, 3, 4, 5, 6] }

/-- Coordinate-2 component of the `d = 4` example: shape `(3, 1, 2)`. -/
def uB2 : NDArray := { shape := [3, 1, 2], data := [1, 2, 3, 4, 5, 6] }

/-- Coordinate-3 component of the `d = 4` example: shape `(2, 1, 1)`. -/
def uB3 : NDArray := { shape := [2, 1, 1], data := [1, 2] }

/-- Example tensor state with `d = 4` and the root at coordinate 0 (the
constructor's choice): the left sweep is empty, the right sweep covers
bonds 2, 1, 0. -/
def tB : BlockTTtensor :=
  { U := [uB0, uB1, uB2, uB3],
    basis := [Reader.ext 0, Reader.ext 1, Reader.ext 2, Reader.ext 3],
    tensordir := "./", d := 4, root := 0, M := 2, R := [2, 3, 1], interfaces := [] }

/-- C1: Left sweep correctness.  For a tensor state with root `r > 0`
(the sweep reads the `root` attribute; the shape hypothesis states the
components left of the root are 3-index arrays, as the data model requires,
so each numpy reshape in the sweep is size-preserving), the list returned
by `ComputeInterfaces` holds at key 0 the linear transform of
`BasisSource[0]` and component 0 unfolded in left mode, and at each key
`0 < k < r` the double product of the previously computed interface `k-1`,
`BasisSource[k]`, and component `k` unfolded in left mode — results stored
under increasing keys `k`. -/
theorem leftSweep_correct (t : BlockTTtensor) (hroot : 0 < t.root)
    (hsh : ∀ j, j < t.root → (t.U.getD j dfltA).shape.length = 3) :
    (ComputeInterfaces t).getD 0 dfltR =
      Reader.linTransform (ComponentBasis t 0) (ComponentTensor t 0 1)
        (interfacePath t 0)
    ∧ ∀ k, 0 < k → k < t.root →
        (ComputeInterfaces t).getD k dfltR =
          Reader.doubleProduct ((ComputeInterfaces t).getD (k - 1) dfltR)
            (ComponentBasis t k) (interfacePath t k) (ComponentTensor t k 1) := by
  constructor
  · rw [ci_get_left t 0 hroot]
    rfl
  · intro k hk0 hk
    rw [ci_get_left t k hk, ci_get_left t (k - 1) (by omega)]
    obtain ⟨j, rfl⟩ : ∃ j, k = j + 1 := ⟨k - 1, by omega⟩
    rw [show j + 1 - 1 = j from by omega]
    rfl

/-- C1 witness: the example state `tA` has root 2; both conjuncts of the
left-sweep theorem instantiated there (the second at `k = 1`). -/
theorem leftSweep_correct_witness :
    (0 < tA.root ∧ ∀ j, j < tA.root → (tA.U.getD j dfltA).shape.length = 3)
    ∧ (ComputeInterfaces tA).getD 0 dfltR =
        Reader.linTransform (ComponentBasis tA 0) (ComponentTensor tA 0 1)
          (interfacePath tA 0)
    ∧ (ComputeInterfaces tA).getD 1 dfltR =
        Reader.doubleProduct ((ComputeInterfaces tA).getD (1 - 1) dfltR)
          (ComponentBasis tA 1) (interfacePath tA 1) (ComponentTensor tA 1 1) :=
  ⟨⟨by decide, by decide⟩,
    (leftSweep_correct tA (by decide) (by decide)).1,
    (leftSweep_correct tA (by decide) (by decide)).2 1 (by decide) (by decide)⟩

/-- C2: Right sweep correctness.  For a tensor state whose root allows a
nonempty right sweep (`root + 2 ≤ d`; the shape hypothesis states the
components right of the root are 3-index arrays, as the data model
requires), the list returned by `ComputeInterfaces` holds at key `d-2` the
linear transform of `BasisSource[d-1]` and the transpose of component
`d-1` unfolded in right mode, and at each key `root ≤ k < d-2` the double
product of `BasisSource[k+1]`, the previously computed interface `k+1`,
and the transpose of component `k+1` unfolded in right mode — results
stored under their coordinate keys in forward order. -/
theorem rightSweep_correct (t : BlockTTtensor) (hd : t.root + 2 ≤ t.d)
    (hsh : ∀ j, j < t.d → t.root < j → (t.U.getD j dfltA).shape.length = 3) :
    (ComputeInterfaces t).getD (t.d - 2) dfltR =
      Reader.linTransform (ComponentBasis t (t.d - 1))
        (np_transpose (ComponentTensor t (t.d - 1) 2)) (interfacePath t (t.d - 2))
    ∧ ∀ k, t.root ≤ k → k < t.d - 2 →
        (ComputeInterfaces t).getD k dfltR =
          Reader.doubleProduct (ComponentBasis t (k + 1))
            ((ComputeInterfaces t).getD (k + 1) dfltR)
            (interfacePath t k) (np_transpose (ComponentTensor t (k + 1) 2)) := by
  constructor
  · rw [ci_get_right t (t.d - 2) (by omega) (le_refl _) hd,
      show t.d - 2 - (t.d - 2) = 0 from by omega]
    rfl
  · intro k hk0 hk
    rw [ci_get_right t k hk0 (by omega) hd,
      ci_get_right t (k + 1) (by omega) (by omega) hd,
      show t.d - 2 - k = (t.d - 3 - k) + 1 from by omega,
      show t.d - 2 - (k + 1) = t.d - 3 - k from by omega]
    show Reader.doubleProduct (ComponentBasis t (t.d - 2 - (t.d - 3 - k)))
        (rightInterface t (t.d - 3 - k)) (interfacePath t (t.d - 3 - (t.d - 3 - k)))
        (np_transpose (ComponentTensor t (t.d - 2 - (t.d - 3 - k)) 2)) =
      Reader.doubleProduct (ComponentBasis t (k + 1)) (rightInterface t (t.d - 3 - k))
        (interfacePath t k) (np_transpose (ComponentTensor t (k + 1) 2))
    rw [show t.d - 2 - (t.d - 3 - k) = k + 1 from by omega,
      show t.d - 3 - (t.d - 3 - k) = k from by omega]

/-- C2 witness: the example state `tB` has root 0 and `d = 4`; both
conjuncts of the right-sweep theorem instantiated there (the second at
`k = 1`). -/
theorem rightSweep_correct_witness :
    (tB.root + 2 ≤ tB.d
      ∧ ∀ j, j < tB.d → tB.root < j → (tB.U.getD j dfltA).shape.length = 3)
    ∧ (ComputeInterfaces tB).getD (tB.d - 2) dfltR =
        Reader.linTransform (ComponentBasis tB (tB.d - 1))
          (np_transpose (ComponentTensor tB (tB.d - 1) 2)) (interfacePath tB (tB.d - 2))
    ∧ (ComputeInterfaces tB).getD 1 dfltR =
        Reader.doubleProduct (ComponentBasis tB (1 + 1))
          ((ComputeInterfaces tB).getD (1 + 1) dfltR)
          (interfacePath tB 1) (np_transpose (ComponentTensor tB (1 + 1) 2)) :=
  ⟨⟨by decide, by decide⟩,
    (rightSweep_correct tB (by decide) (by decide)).1,
    (rightSweep_correct tB (by decide) (by decide)).2 1 (by decide) (by decide)⟩

/-- C4: Full bond coverage.  After the two-sweep computation, the interface
list has exactly `d - 1` entries; its first `root` entries are exactly the
left sweep's results (keys `k < root`) and the remaining `d - 1 - root`
entries are exactly the right sweep's results (keys `root ≤ k ≤ d - 2`), so
every bond key holds exactly one interface and no key is produced by both
sweeps; in particular for `root = 0` the left sweep is empty and the whole
list is the right sweep's. -/
theorem bond_coverage (t : BlockTTtensor) (hd : 1 ≤ t.d) (hr : t.root ≤ t.d - 1) :
    (ComputeInterfaces t).length = t.d - 1
    ∧ (leftSweep t).length = t.root
    ∧ (rightSweep t).length = t.d - 1 - t.root
    ∧ (ComputeInterfaces t).take t.root = leftSweep t
    ∧ (ComputeInterfaces t).drop t.root = rightSweep t
    ∧ (t.root = 0 → leftSweep t = [] ∧ ComputeInterfaces t = rightSweep t) := by
  have hl := leftSweep_length t
  have hrl := rightSweep_length t
  refine ⟨?_, hl, hrl, ?_, ?_, ?_⟩
  · show (leftSweep t ++ rightSweep t).length = t.d - 1
    rw [List.length_append, hl, hrl]
    omega
  · show (leftSweep t ++ rightSweep t).take t.root = leftSweep t
    rw [← hl]
    exact List.take_left _ _
  · show (leftSweep t ++ rightSweep t).drop t.root = rightSweep t
    rw [← hl]
    exact List.drop_left _ _
  · intro h0
    have hnil : leftSweep t = [] := by
      have := leftSweep_length t
      rw [h0] at this
      exact List.length_eq_zero.mp this
    refine ⟨hnil, ?_⟩
    show leftSweep t ++ rightSweep t = rightSweep t
    rw [hnil, List.nil_append]

/-- C4 witness: the theorem instantiated at the constructed-shape example
`tB` (`d = 4`, `root = 0`). -/
theorem bond_coverage_witness :
    (1 ≤ tB.d ∧ tB.root ≤ tB.d - 1)
    ∧ ((ComputeInterfaces tB).length = tB.d - 1
      ∧ (leftSweep tB).length = tB.root
      ∧ (rightSweep tB).length = tB.d - 1 - tB.root
      ∧ (ComputeInterfaces tB).take tB.root = leftSweep tB
      ∧ (ComputeInterfaces tB).drop tB.root = rightSweep tB
      ∧ (tB.root = 0 → leftSweep tB = [] ∧ ComputeInterfaces tB = rightSweep tB)) :=
  ⟨⟨by decide, by decide⟩, bond_coverage tB (by decide) (by decide)⟩

/-- C8: Sweep idempotence.  In this embedding the streamed primitives are
deterministic functions of their argument streams, matrices and cache path,
so `ComputeInterfaces` is a function of the attributes it reads — `U`,
`basis`, `tensordir`, `root` and `d` — and of nothing else (in particular
not of the `interfaces` attribute the first run filled, nor of `R` or `M`).
Two runs over states agreeing on those attributes — e.g. the same tensor
before and after its first sweep, with the same cache directory and
unchanged component arrays and basis sources — return identical interface
lists, cache paths included. -/
theorem computeInterfaces_deterministic (t t2 : BlockTTtensor)
    (hU : t2.U = t.U) (hb : t2.basis = t.basis) (hdir : t2.tensordir = t.tensordir)
    (hroot : t2.root = t.root) (hd : t2.d = t.d) :
    ComputeInterfaces t2 = ComputeInterfaces t := by
  show leftSweep t2 ++ rightSweep t2 = leftSweep t ++ rightSweep t
  rw [leftSweep_congr hU hb hdir hroot, rightSweep_congr hU hb hdir hroot hd]

/-- State of `tB` after its first sweep stored the interfaces (and with
`R` and `M` deliberately perturbed, which the sweep must not read). -/
def tBafter : BlockTTtensor :=
  { tB with interfaces := ComputeInterfaces tB, R := [], M := 0 }

/-- C8 witness: rerunning the sweep on `tBafter` — same components, basis
sources and cache directory as `tB`, interfaces already populated —
returns the same list as the first run. -/
theorem computeInterfaces_deterministic_witness :
    (tBafter.U = tB.U ∧ tBafter.basis = tB.basis ∧ tBafter.tensordir = tB.tensordir
      ∧ tBafter.root = tB.root ∧ tBafter.d = tB.d)
    ∧ ComputeInterfaces tBafter = ComputeInterfaces tB :=
  ⟨⟨rfl, rfl, rfl, rfl, rfl⟩,
    computeInterfaces_deterministic tB tBafter rfl rfl rfl rfl rfl⟩

/-- Root component of a constructor-built `d = 3` example: shape
`(1, 1, 2, 2)`. -/
def uC0 : NDArray := { shape := [1, 1, 2, 2], data := [1, 2, 3, 4] }

/-- Coordinate-1 component of the constructor-built example: shape
`(2, 1, 3)`. -/
def uC1 : NDArray := { shape := [2, 1, 3], data := [1, 2, 3, 4, 5, 6] }

/-- Coordinate-2 component of the constructor-built example: shape
`(3, 1, 1)`. -/
def uC2 : NDArray := { shape := [3, 1, 1], data := [1, 2, 3] }

/-- C5: the `GetRanks` guard `k >= 0 or k <= (self.d-2)` is satisfied by
every integer (in particular by the default `k = -1`), so the call with no
argument returns the single entry `R[-1] = R[d-2]` — here `3` — and not
the full rank vector `[2, 3]` that the claim and the method's own
docstring promise.  The tensor is built by the constructor itself. -/
theorem getRanks_default_bug :
    ∃ t, mkBlockTT [uC0, uC1, uC2] [Reader.ext 0, Reader.ext 1, Reader.ext 2] "./" =
        Except.ok t
      ∧ t.R = [2, 3]
      ∧ GetRanksDefault t = RankResult.one 3
      ∧ ¬ GetRanksDefault t = RankResult.all t.R :=
  ⟨_, rfl, rfl, rfl, by decide⟩

/-- C6: Unfolding contract of `ComponentTensor`.  For a non-root
coordinate holding a 3-index array of shape `(a, b, c)`, order 1 returns
the left unfolding — same buffer, shape `(a·b, c)` — and order 2 the right
unfolding — same buffer, shape `(a, b·c)`; for the root coordinate the
stored array is returned unchanged whatever order is requested. -/
theorem componentTensor_unfolding (t : BlockTTtensor) (k a b c : Nat) :
    (¬ k = t.root → (t.U.getD k dfltA).shape = [a, b, c] →
        ComponentTensor t k 1 =
          { shape := [a * b, c], data := (t.U.getD k dfltA).data }
        ∧ ComponentTensor t k 2 =
          { shape := [a, b * c], data := (t.U.getD k dfltA).data })
    ∧ (k = t.root → ∀ order, ComponentTensor t k order = t.U.getD k dfltA) := by
  constructor
  · intro hk hshape
    have hs2 : (t.U[k]?.getD dfltA).shape = [a, b, c] := by
      rw [← List.getD_eq_getElem?_getD]
      exact hshape
    constructor
    · simp [ComponentTensor, GetRankTriple, hk, hs2, np_reshape]
    · simp [ComponentTensor, GetRankTriple, hk, hs2, np_reshape]
  · intro hk order
    simp [ComponentTensor, hk]

/-- C6 witness: coordinate 1 of `tA` is not the root and has shape
`(2, 1, 3)`; its two unfoldings have shapes `(2, 3)` and `(2, 3)`
respectively with the original buffer. -/
theorem componentTensor_unfolding_witness :
    (¬ 1 = tA.root ∧ (tA.U.getD 1 dfltA).shape = [2, 1, 3])
    ∧ (ComponentTensor tA 1 1 =
        { shape := [2 * 1, 3], data := (tA.U.getD 1 dfltA).data }
      ∧ ComponentTensor tA 1 2 =
        { shape := [2, 1 * 3], data := (tA.U.getD 1 dfltA).data }) :=
  ⟨⟨by decide, by decide⟩,
    (componentTensor_unfolding tA 1 2 1 3).1 (by decide) (by decide)⟩

/-- C7: Frame effect of the component setter.  `SetComponentTensor k A`
replaces exactly the stored component at index `k`; the rank vector `R`,
the root, the basis sources, every cached interface, the cache directory,
`d` and `M` are untouched — no revalidation, no interface invalidation —
and components at other indices are unchanged. -/
theorem setComponentTensor_frame (t : BlockTTtensor) (k : Nat) (A : NDArray)
    (hk : k < t.U.length) :
    (SetComponentTensor t k A).R = t.R
    ∧ (SetComponentTensor t k A).root = t.root
    ∧ (SetComponentTensor t k A).basis = t.basis
    ∧ (SetComponentTensor t k A).interfaces = t.interfaces
    ∧ (SetComponentTensor t k A).tensordir = t.tensordir
    ∧ (SetComponentTensor t k A).d = t.d
    ∧ (SetComponentTensor t k A).M = t.M
    ∧ (SetComponentTensor t k A).U.getD k dfltA = A
    ∧ ∀ j, ¬ j = k → (SetComponentTensor t k A).U.getD j dfltA = t.U.getD j dfltA := by
  refine ⟨rfl, rfl, rfl, rfl, rfl, rfl, rfl, ?_, ?_⟩
  · show (t.U.set k A).getD k dfltA = A
    rw [List.getD_eq_getElem?_getD, List.getElem?_set_self]
    · simp [hk]
    · exact hk
  · intro j hj
    show (t.U.set k A).getD j dfltA = t.U.getD j dfltA
    rw [List.getD_eq_getElem?_getD, List.getElem?_set_ne (Ne.symm hj),
      ← List.getD_eq_getElem?_getD]

/-- C7 witness: replacing component 0 of `tA` by the array `uB3` changes
only that slot. -/
theorem setComponentTensor_frame_witness :
    0 < tA.U.length
    ∧ ((SetComponentTensor tA 0 uB3).R = tA.R
      ∧ (SetComponentTensor tA 0 uB3).root = tA.root
      ∧ (SetComponentTensor tA 0 uB3).basis = tA.basis
      ∧ (SetComponentTensor tA 0 uB3).interfaces = tA.interfaces
      ∧ (SetComponentTensor tA 0 uB3).tensordir = tA.tensordir
      ∧ (SetComponentTensor tA 0 uB3).d = tA.d
      ∧ (SetComponentTensor tA 0 uB3).M = tA.M
      ∧ (SetComponentTensor tA 0 uB3).U.getD 0 dfltA = uB3
      ∧ ∀ j, ¬ j = 0 →
          (SetComponentTensor tA 0 uB3).U.getD j dfltA = tA.U.getD j dfltA) :=
  ⟨by decide, setComponentTensor_frame tA 0 uB3 (by decide)⟩

/-- First component of the rank-mismatch input: 4-index, shape
`(1, 2, 2, 4)` — its rightRank axis (`shape[2]`) is 2. -/
def cu0 : NDArray :=
  { shape := [1, 2, 2, 4],
    data := [1, 2, 3, 4, 5, 6, 7, 8, 9, 10, 11, 12, 13, 14, 15, 16] }

/-- Second component of the rank-mismatch input: shape `(3, 2, 1)` — its
leftRank axis (`shape[0]`) is 3, disagreeing with its left neighbour's
rightRank 2. -/
def cu1 : NDArray := { shape := [3, 2, 1], data := [1, 2, 3, 4, 5, 6] }

/-- C3 counterexample: component 1 declares leftRank 3 while component 0
declares rightRank 2, yet construction succeeds — no rank-consistency
check runs and no `ShapeMismatchError` (no such error exists anywhere in
the code) is raised before the streamed sweep. -/
theorem rank_check_counterexample :
    cu1.shape.getD 0 0 = 3 ∧ cu0.shape.getD 2 0 = 2
    ∧ ∃ t, mkBlockTT [cu0, cu1] [Reader.ext 0, Reader.ext 1] "./" = Except.ok t :=
  ⟨by decide, by decide, ⟨_, rfl⟩⟩

lemma extractRList_ok : ∀ L : List NDArray, (∀ A ∈ L, 3 ≤ A.shape.length) →
    extractRList L = Except.ok (L.map (fun A => A.shape.getD 2 0)) := by
  intro L
  induction L with
  | nil => intro _; rfl
  | cons A rest ih =>
      intro h
      have hg : A.shape.get? 2 = some (A.shape.getD 2 0) := by
        rw [List.get?_eq_getElem?, List.getD_eq_getElem?_getD,
          List.getElem?_eq_getElem (show 2 < A.shape.length by
            have := h A (List.mem_cons_self A rest); omega)]
        rfl
      simp only [extractRList]
      rw [hg, ih (fun B hB => h B (List.mem_cons_of_mem A hB))]
      rfl

/-- C3 amended: the rank vector is derived at construction by reading each
component's own third axis (`R[k] = U[k].shape[2]`) with no cross-component
consistency check, so construction succeeds on any input whose first
component has at least four axes and whose first `d-1` components have at
least three — in particular on inputs whose neighbouring ranks disagree —
and no `ShapeMismatchError` is raised before the streamed sweep runs. -/
theorem construction_no_rank_check (U : List NDArray) (bs : List Reader)
    (dir : String) (hne : U ≠ [])
    (h0 : 4 ≤ (U.getD 0 dfltA).shape.length)
    (h3 : ∀ A ∈ U.take (U.length - 1), 3 ≤ A.shape.length) :
    ∃ t, mkBlockTT U bs dir = Except.ok t
      ∧ t.R = (U.take (U.length - 1)).map (fun A => A.shape.getD 2 0) := by
  obtain ⟨A, rest, rfl⟩ : ∃ A rest, U = A :: rest := by
    cases U with
    | nil => exact absurd rfl hne
    | cons A rest => exact ⟨A, rest, rfl⟩
  have h0a : 4 ≤ A.shape.length := by
    simpa using h0
  have hM : extractM (A :: rest) = Except.ok (A.shape.getD 3 0) := by
    have hg : A.shape.get? 3 = some (A.shape.getD 3 0) := by
      rw [List.get?_eq_getElem?, List.getD_eq_getElem?_getD,
        List.getElem?_eq_getElem (show 3 < A.shape.length by omega)]
      rfl
    simp only [extractM]
    rw [hg]
  have hR : extractR (A :: rest) =
      Except.ok (((A :: rest).take ((A :: rest).length - 1)).map
        (fun B => B.shape.getD 2 0)) := by
    show extractRList ((A :: rest).take ((A :: rest).length - 1)) = _
    exact extractRList_ok _ h3
  unfold mkBlockTT
  rw [hM, hR]
  exact ⟨_, rfl, rfl⟩

/-- C3 witness for the amended statement: the mismatched input `[cu0, cu1]`
satisfies the amended theorem's shape hypotheses, and construction indeed
succeeds on it with `R = [2]` taken from component 0 alone. -/
theorem construction_no_rank_check_witness :
    (([cu0, cu1] : List NDArray) ≠ []
      ∧ 4 ≤ (([cu0, cu1] : List NDArray).getD 0 dfltA).shape.length
      ∧ ∀ A ∈ ([cu0, cu1] : List NDArray).take
          (([cu0, cu1] : List NDArray).length - 1), 3 ≤ A.shape.length)
    ∧ ∃ t, mkBlockTT [cu0, cu1] [Reader.ext 0, Reader.ext 1] "./" = Except.ok t
        ∧ t.R = (([cu0, cu1] : List NDArray).take
            (([cu0, cu1] : List NDArray).length - 1)).map
              (fun A => A.shape.getD 2 0) :=
  ⟨⟨by decide, by decide, by decide⟩,
    construction_no_rank_check [cu0, cu1] [Reader.ext 0, Reader.ext 1] "./"
      (by decide) (by decide) (by decide)⟩

/-- C9: the constructor unconditionally evaluates
`self.M = np.shape(self.U[0])[3]` before deriving the rank vector and
before any sweep step (it is the first failing statement in program
order, and its failure aborts construction), so a first component with
fewer than four axes makes construction fail with an out-of-range index
access; when the first component is a 4-index (or longer) array that
access is in bounds and yields its fourth axis. -/
theorem constructor_fourth_axis (A : NDArray) (rest : List NDArray)
    (bs : List Reader) (dir : String) :
    (A.shape.length < 4 →
      mkBlockTT (A :: rest) bs dir = Except.error InitError.indexError)
    ∧ (4 ≤ A.shape.length →
      extractM (A :: rest) = Except.ok (A.shape.getD 3 0)) := by
  constructor
  · intro h
    have hM : extractM (A :: rest) = Except.error InitError.indexError := by
      have hn : A.shape.get? 3 = none := by
        rw [List.get?_eq_getElem?]
        exact List.getElem?_eq_none (by omega)
      simp only [extractM]
      rw [hn]
    unfold mkBlockTT
    rw [hM]
  · intro h
    have hg : A.shape.get? 3 = some (A.shape.getD 3 0) := by
      rw [List.get?_eq_getElem?, List.getD_eq_getElem?_getD,
        List.getElem?_eq_getElem (show 3 < A.shape.length by omega)]
      rfl
    simp only [extractM]
    rw [hg]

/-- C9 witness: a 3-index first component (shape `(2, 1, 3)`) aborts
construction with the index error. -/
theorem constructor_fourth_axis_witness :
    uC1.shape.length < 4
    ∧ mkBlockTT [uC1] [] "./" = Except.error InitError.indexError :=
  ⟨by decide, (constructor_fourth_axis uC1 [] [] "./").1 (by decide)⟩

lemma cachePathOf_leftInterface (t : BlockTTtensor) (k : Nat) :
    Reader.cachePathOf (leftInterface t k) = some (interfacePath t k) := by
  cases k with
  | zero => rfl
  | succ j => rfl

lemma cachePathOf_rightInterface (t : BlockTTtensor) (j : Nat) :
    Reader.cachePathOf (rightInterface t j) = some (interfacePath t (t.d - 2 - j)) := by
  cases j with
  | zero => rfl
  | succ j =>
      show some (interfacePath t (t.d - 3 - j)) = some (interfacePath t (t.d - 2 - (j + 1)))
      rw [show t.d - 2 - (j + 1) = t.d - 3 - j from by omega]

lemma mkBlockTT_tensordir (U : List NDArray) (bs : List Reader) (dir : String)
    (t2 : BlockTTtensor) (h : mkBlockTT U bs dir = Except.ok t2) :
    t2.tensordir = dir := by
  unfold mkBlockTT at h
  cases hM : extractM U with
  | error e => rw [hM] at h; cases h
  | ok m =>
      rw [hM] at h
      cases hR : extractR U with
      | error e => rw [hR] at h; cases h
      | ok rs =>
          rw [hR] at h
          injection h with h2
          rw [← h2]

/-- C10: Cache-path scheme.  Each interface stored at bond key `k` — in
either sweep — was produced with persistence path exactly the plain
concatenation of the configured cache directory, the word `Interface`,
and the decimal index `k`, with no separator inserted; and a tensor built
without a `tensordir` argument carries the default directory `"./"`. -/
theorem cachePath_scheme (t : BlockTTtensor) (hd : 1 ≤ t.d)
    (hr : t.root ≤ t.d - 1) :
    (∀ k, k < t.d - 1 →
        Reader.cachePathOf ((ComputeInterfaces t).getD k dfltR) =
          some (t.tensordir ++ "Interface" ++ Nat.repr k))
    ∧ ∀ U bs t2, mkBlockTTdefault U bs = Except.ok t2 → t2.tensordir = "./" := by
  constructor
  · intro k hk
    by_cases hkr : k < t.root
    · rw [ci_get_left t k hkr, cachePathOf_leftInterface]
      rfl
    · have h2 : t.root + 2 ≤ t.d := by omega
      rw [ci_get_right t k (by omega) (by omega) h2, cachePathOf_rightInterface,
        show t.d - 2 - (t.d - 2 - k) = k from by omega]
      rfl
  · intro U bs t2 h
    exact mkBlockTT_tensordir U bs "./" t2 h

/-- C10 witness: in the `d = 4` example with cache directory `"./"`, the
interface stored at bond 1 carries cache path `"./Interface1"`. -/
theorem cachePath_scheme_witness :
    (1 ≤ tB.d ∧ tB.root ≤ tB.d - 1)
    ∧ Reader.cachePathOf ((ComputeInterfaces tB).getD 1 dfltR) =
        some (tB.tensordir ++ "Interface" ++ Nat.repr 1) :=
  ⟨⟨by decide, by decide⟩,
    (cachePath_scheme tB (by decide) (by decide)).1 1 (by decide)⟩
